import Mathlib

/-!
Verification development for the browser-side client of a QR restaurant-ordering
web application.  The embedded code consists of:

* the `Cart` module (an IIFE over `localStorage`): `init`, `_load`, `_save`,
  `add`, `remove`, `setQty`, `setNote`, `getLines`, `clear`, `total`, `count`,
  `renderCheckout`, `escapeHtml`, `escapeAttr`;
* the service worker's `fetch` listener (cache-first with network fallback);
* the staff page's `confirmPayment` handler.

Modelling conventions:

* JavaScript numbers are modelled by `ℚ` (plus a separate `NaN` marker);
  IEEE-754 rounding is idealised away — no claim below depends on it.
* Strings are sequences of Unicode scalar values (`String`); JavaScript's
  UTF-16 code units coincide with these for all characters appearing here.
* `localStorage` is an association list from keys to stored values.  A stored
  value is either `malformed` (a string `JSON.parse` throws on) or the
  serialisation of an array of line objects.  `JSON.parse ∘ JSON.stringify`
  normalisation (`NaN ↦ null`, `undefined` field ↦ omitted field, which reads
  back as `undefined`) is applied by `_save`, exactly where the code
  round-trips through JSON.
* `Number(x)` on strings is modelled for decimal literals with optional sign,
  fraction and exponent; hexadecimal/`Infinity` literals are outside the model.
* All embedded functions are total, mirroring the fact that the corresponding
  JavaScript never throws on the inputs considered.
-/

/-- A JavaScript value as it can occur in a cart line field: a (finite) number,
`NaN`, `null`, `undefined` (a missing field reads back as `undefined`), a
boolean, or a string. -/
inductive JSVal where
  | num (q : ℚ)
  | nan
  | nullv
  | undef
  | boolv (b : Bool)
  | str (s : String)
deriving DecidableEq

/-- A cart line object `{ menu_item_id, name, price, qty, note }`.  Each field
holds an arbitrary JavaScript value, so that tampered / hand-written stored
states are representable, not only the ones the module itself writes. -/
structure JSLine where
  menu_item_id : JSVal
  name : JSVal
  price : JSVal
  qty : JSVal
  note : JSVal
deriving DecidableEq

/-- A value stored under a `localStorage` key: either a string on which
`JSON.parse` throws, or the serialisation of an array of line objects. -/
inductive StoredVal where
  | malformed
  | lines (ls : List JSLine)
deriving DecidableEq

/-- Browser `localStorage`, as an association list from keys to stored values. -/
abbrev Store := List (String × StoredVal)

/-- Models `localStorage.getItem`: the value at `key`, or `none` (JS `null`). -/
def getItem : Store → String → Option StoredVal
  | [], _ => none
  | (k, v) :: rest, key => if k = key then some v else getItem rest key

/-- Models `localStorage.setItem`: replaces the entry at `key`, or appends one. -/
def setItem : Store → String → StoredVal → Store
  | [], key, v => [(key, v)]
  | (k, w) :: rest, key, v =>
      if k = key then (k, v) :: rest else (k, w) :: setItem rest key v

/-- Models `localStorage.removeItem`. -/
def removeItem : Store → String → Store
  | [], _ => []
  | (k, v) :: rest, key =>
      if k = key then removeItem rest key else (k, v) :: removeItem rest key

/-- JavaScript truthiness on `JSVal` (`0`, `NaN`, `null`, `undefined`, `false`
and `""` are falsy). -/
def jsFalsy : JSVal → Bool
  | JSVal.num q => if q = 0 then true else false
  | JSVal.nan => true
  | JSVal.nullv => true
  | JSVal.undef => true
  | JSVal.boolv b => !b
  | JSVal.str s => if s = "" then true else false

/-- The value of a digit list read in base 10. -/
def digitsVal (ds : List Char) : ℕ :=
  ds.foldl (fun a c => 10 * a + (c.toNat - 48)) 0

/-- Models `parseInt(s, 10)`: skip leading whitespace, optional sign, then the longest
digit prefix; no digits means `NaN` (`none`). -/
def parseIntJS (s : String) : Option ℤ :=
  let cs := s.data.dropWhile Char.isWhitespace
  let signed : Bool × List Char :=
    match cs with
    | '-' :: rest => (true, rest)
    | '+' :: rest => (false, rest)
    | _ => (false, cs)
  let ds := signed.2.takeWhile Char.isDigit
  if ds.isEmpty then none
  else some (if signed.1 then -(digitsVal ds : ℤ) else (digitsVal ds : ℤ))

/-- The numeric value of a full decimal literal `[sign](digits[.digits] |
.digits)[(e|E)[sign]digits]`, or `none` (`NaN`).  Used by `jsStringToNumber`. -/
def parseDecimalLit (cs : List Char) : Option ℚ :=
  let signed : Bool × List Char :=
    match cs with
    | '-' :: rest => (true, rest)
    | '+' :: rest => (false, rest)
    | _ => (false, cs)
  let intDs := signed.2.takeWhile Char.isDigit
  let rest1 := signed.2.drop intDs.length
  let fracPair : List Char × List Char :=
    match rest1 with
    | '.' :: r => (r.takeWhile Char.isDigit, r.drop (r.takeWhile Char.isDigit).length)
    | _ => ([], rest1)
  let fracDs := fracPair.1
  let rest2 := fracPair.2
  if intDs.isEmpty && fracDs.isEmpty then none
  else
    let mant : ℚ := (digitsVal intDs : ℚ) + (digitsVal fracDs : ℚ) / ((10 : ℚ) ^ fracDs.length)
    let signedMant : ℚ := if signed.1 then -mant else mant
    match rest2 with
    | [] => some signedMant
    | e :: r =>
        if e = 'e' || e = 'E' then
          let esigned : Bool × List Char :=
            match r with
            | '-' :: r2 => (true, r2)
            | '+' :: r2 => (false, r2)
            | _ => (false, r)
          let eDs := esigned.2.takeWhile Char.isDigit
          if eDs.isEmpty || !(esigned.2.drop eDs.length).isEmpty then none
          else
            let ex : ℤ := if esigned.1 then -(digitsVal eDs : ℤ) else (digitsVal eDs : ℤ)
            some (signedMant * (10 : ℚ) ^ ex)
        else none

/-- Models `Number(s)` for a string `s`: trim whitespace; empty means `0`; otherwise
the whole remainder must be a decimal literal, else `NaN` (`none`).
Hexadecimal and `Infinity` literals are outside the model. -/
def jsStringToNumber (s : String) : Option ℚ :=
  let cs := ((s.data.dropWhile Char.isWhitespace).reverse.dropWhile Char.isWhitespace).reverse
  if cs.isEmpty then some 0 else parseDecimalLit cs

/-- Models `Number(v)` on a `JSVal`, with `none` standing for `NaN`. -/
def jsToNumber : JSVal → Option ℚ
  | JSVal.num q => some q
  | JSVal.nan => none
  | JSVal.nullv => some 0
  | JSVal.undef => none
  | JSVal.boolv b => some (if b then 1 else 0)
  | JSVal.str s => jsStringToNumber s

/-- Models `Number(v) || 0`: the numeric conversion with `NaN` replaced by `0`. -/
def numOr0 (v : JSVal) : ℚ := (jsToNumber v).getD 0

/-- JavaScript `v + 1` (as in `found.qty += 1`) on each kind of value. -/
def jsPlus1 : JSVal → JSVal
  | JSVal.num q => JSVal.num (q + 1)
  | JSVal.nan => JSVal.nan
  | JSVal.nullv => JSVal.num 1
  | JSVal.undef => JSVal.nan
  | JSVal.boolv b => JSVal.num ((if b then 1 else 0) + 1)
  | JSVal.str s => JSVal.str (s ++ "1")

/-- One field under `JSON.parse ∘ JSON.stringify`: `NaN` serialises as `null`;
`undefined` fields are omitted and read back as `undefined`; everything else
round-trips unchanged. -/
def normField : JSVal → JSVal
  | JSVal.nan => JSVal.nullv
  | v => v

/-- A whole line under the JSON round-trip performed by `_save`/`_load`. -/
def normLine (l : JSLine) : JSLine :=
  ⟨normField l.menu_item_id, normField l.name, normField l.price,
   normField l.qty, normField l.note⟩

/-- Models `x.menu_item_id === menu_item_id` where the argument is the string `id`:
strict equality holds exactly when the field is that very string. -/
def isId (id : String) (l : JSLine) : Bool :=
  match l.menu_item_id with
  | JSVal.str s => s == id
  | _ => false

/-- Replace the first element satisfying `p` by its image under `f` (the JS
code mutates the object returned by `Array.prototype.find`). -/
def updateFirst (p : JSLine → Bool) (f : JSLine → JSLine) : List JSLine → List JSLine
  | [] => []
  | l :: rest => if p l then f l :: rest else l :: updateFirst p f rest

/-- The object literal `{ menu_item_id, name, price, qty: 1, note: "" }`
pushed by `add` for a fresh item. -/
def newLine (menu_item_id nm : String) (price : ℚ) : JSLine :=
  ⟨JSVal.str menu_item_id, JSVal.str nm, JSVal.num price, JSVal.num 1, JSVal.str ""⟩

namespace Cart

/-- Models `init(tableToken, customerId)`, which computes the storage key
`cart:<table_token>:<customer_id || "anon">` (a missing or empty customer id
falls back to `"anon"`).  The key is threaded explicitly through every
operation below, in place of the module-level mutable `key` variable. -/
def initKey (tableToken : String) (customerId : Option String) : String :=
  "cart:" ++ tableToken ++ ":" ++
    (match customerId with
     | some c => if c = "" then "anon" else c
     | none => "anon")

/-- Models `_load()`: `JSON.parse(localStorage.getItem(key) || "[]")` with the
`try/catch` returning `[]` on parse failure.  A missing key yields `[]`. -/
def _load (key : String) (st : Store) : List JSLine :=
  match getItem st key with
  | some (StoredVal.lines ls) => ls
  | some StoredVal.malformed => []
  | none => []

/-- Models `_save(lines)`: `localStorage.setItem(key, JSON.stringify(lines))`.  The
stored value is the JSON round-trip of `lines` (`normLine` per element).
The `syncUI()` call only touches the DOM, not the store. -/
def _save (key : String) (st : Store) (lines : List JSLine) : Store :=
  setItem st key (StoredVal.lines (lines.map normLine))

/-- Models `add(menu_item_id, name, price)`. -/
def add (key menu_item_id nm : String) (price : ℚ) (st : Store) : Store :=
  let lines := _load key st
  if (lines.find? (isId menu_item_id)).isSome then
    _save key st (updateFirst (isId menu_item_id)
      (fun l => { l with qty := jsPlus1 l.qty }) lines)
  else
    _save key st (lines ++ [newLine menu_item_id nm price])

/-- Models `remove(menu_item_id)`. -/
def remove (key menu_item_id : String) (st : Store) : Store :=
  _save key st ((_load key st).filter (fun l => !(isId menu_item_id l)))

/-- The value `Math.max(1, parseInt(qty || 1, 10))` assigned by `setQty`:
an empty string is falsy, so `parseInt` receives the number `1`; a parse
failure gives `NaN`, and `Math.max(1, NaN)` is `NaN`. -/
def setQtyValue (qty : String) : JSVal :=
  match (if qty = "" then some (1 : ℤ) else parseIntJS qty) with
  | some n => JSVal.num ((max 1 n : ℤ) : ℚ)
  | none => JSVal.nan

/-- Models `setQty(menu_item_id, qty)`; the early `return` on a missing line leaves
the store untouched. -/
def setQty (key menu_item_id qty : String) (st : Store) : Store :=
  let lines := _load key st
  if (lines.find? (isId menu_item_id)).isSome then
    _save key st (updateFirst (isId menu_item_id)
      (fun l => { l with qty := Cart.setQtyValue qty }) lines)
  else st

/-- Models `setNote(menu_item_id, note)`: `(note || "").slice(0, 300)`; for a string
argument this is the 300-character prefix. -/
def setNote (key menu_item_id noteArg : String) (st : Store) : Store :=
  let lines := _load key st
  if (lines.find? (isId menu_item_id)).isSome then
    _save key st (updateFirst (isId menu_item_id)
      (fun l => { l with note := JSVal.str (String.mk (noteArg.data.take 300)) }) lines)
  else st

/-- Models `getLines()`. -/
def getLines (key : String) (st : Store) : List JSLine := _load key st

/-- Models `clear()`: `localStorage.removeItem(key)`. -/
def clear (key : String) (st : Store) : Store := removeItem st key

/-- Models `total()`: `_load().reduce((s, x) => s + (Number(x.price) || 0) * (Number(x.qty) || 0), 0)`. -/
def total (key : String) (st : Store) : ℚ :=
  (_load key st).foldl (fun s x => s + numOr0 x.price * numOr0 x.qty) 0

/-- Models `count()`: `_load().reduce((s, x) => s + (Number(x.qty) || 0), 0)`. -/
def count (key : String) (st : Store) : ℚ :=
  (_load key st).foldl (fun s x => s + numOr0 x.qty) 0

end Cart

/-- A cart mutation, for reasoning about operation sequences. -/
inductive Op where
  | add (id nm : String) (price : ℚ)
  | remove (id : String)
  | setQty (id qty : String)
  | setNote (id noteArg : String)
  | clear
deriving DecidableEq

/-- Apply one mutation to the store. -/
def applyOp (key : String) (op : Op) (st : Store) : Store :=
  match op with
  | Op.add id nm price => Cart.add key id nm price st
  | Op.remove id => Cart.remove key id st
  | Op.setQty id qty => Cart.setQty key id qty st
  | Op.setNote id noteArg => Cart.setNote key id noteArg st
  | Op.clear => Cart.clear key st

/-- Apply a sequence of mutations, left to right. -/
def runOps (key : String) (ops : List Op) (st : Store) : Store :=
  ops.foldl (fun s op => applyOp key op s) st

/-- The quantity field is a number that is at least 1. -/
def qtyOk : JSVal → Bool
  | JSVal.num q => decide (1 ≤ q)
  | _ => false

/-- The note field is a string of at most 300 characters. -/
def noteOk : JSVal → Bool
  | JSVal.str s => decide (s.length ≤ 300)
  | _ => false

/-- The spec's data-model invariant for one line. -/
def lineOk (l : JSLine) : Bool := qtyOk l.qty && noteOk l.note

/-- The spec's data-model invariant for a cart: every line satisfies it. -/
def cartOk (ls : List JSLine) : Bool := ls.all lineOk

/-- The note half of the invariant alone. -/
def notesOk (ls : List JSLine) : Bool := ls.all (fun l => noteOk l.note)

/-- A `setQty` argument on which `parseInt(qty || 1, 10)` succeeds: the empty
string (falsy, defaults to 1) or a string with a digit prefix. -/
def goodQtyStr (s : String) : Bool := (s == "") || (parseIntJS s).isSome

/-- An operation whose `setQty` argument (if any) parses. -/
def opGood : Op → Bool
  | Op.setQty _ q => goodQtyStr q
  | _ => true

/-- A field that is not `NaN` (every field loaded from JSON storage is such,
since JSON has no `NaN` literal). -/
def fieldNanFree : JSVal → Bool
  | JSVal.nan => false
  | _ => true

/-- A line none of whose fields is `NaN`. -/
def lineNanFree (l : JSLine) : Bool :=
  fieldNanFree l.menu_item_id && fieldNanFree l.name && fieldNanFree l.price &&
  fieldNanFree l.qty && fieldNanFree l.note

/-! ## Checkout renderer: escaping and the per-row HTML template -/

/-- The replacement for one character under
`replace(/[&<>"']/g, m => ({...}[m]))`. -/
def escChar (c : Char) : List Char :=
  if c = '&' then "&amp;".data
  else if c = '<' then "&lt;".data
  else if c = '>' then "&gt;".data
  else if c = '"' then "&quot;".data
  else if c = '\'' then "&#039;".data
  else [c]

/-- Models `String(v)` for a template literal or `String(...)` call.  Exact for
integers (the only numbers the module itself writes into quantities); the
printed form of a non-integral number is idealised. -/
def jsValToString : JSVal → String
  | JSVal.num q => if q.den = 1 then toString q.num else toString q
  | JSVal.nan => "NaN"
  | JSVal.nullv => "null"
  | JSVal.undef => "undefined"
  | JSVal.boolv b => if b then "true" else "false"
  | JSVal.str s => s

/-- Models `escapeHtml(s)`: `String(s || "")` with each of `& < > " '` replaced by
its entity. -/
def escapeHtml (v : JSVal) : String :=
  String.mk ((jsValToString (if jsFalsy v then JSVal.str "" else v)).data.foldr
    (fun c acc => escChar c ++ acc) [])

/-- Models `escapeAttr(s)`: `escapeHtml(s).replace(/"/g, "&quot;")`. -/
def escapeAttr (v : JSVal) : String :=
  String.mk ((escapeHtml v).data.foldr
    (fun c acc => (if c = '"' then "&quot;".data else [c]) ++ acc) [])

/-- Models `toFixed(2)` on a non-negative rational: digits of `round(q * 100)` with a
decimal point before the last two.  Rounding is idealised as half-up. -/
def fixed2Nonneg (q : ℚ) : String :=
  let n : ℤ := ⌊q * 100 + 1 / 2⌋
  toString (n / 100) ++ "." ++
    (let r := (n % 100).toNat
     (if r < 10 then "0" else "") ++ toString r)

/-- Models `x.toFixed(2)` for a number `x`, with `none` standing for `NaN`
(`NaN.toFixed(2)` is the string `"NaN"`). -/
def toFixed2 : Option ℚ → String
  | none => "NaN"
  | some q => if q < 0 then "-" ++ fixed2Nonneg (-q) else fixed2Nonneg q

/-- The interpolation `${escapeHtml(line.name)}` of the row template. -/
def nameFragment (l : JSLine) : String := escapeHtml l.name

/-- The interpolation `${Number(line.price).toFixed(2)}`. -/
def priceFragment (l : JSLine) : String := toFixed2 (jsToNumber l.price)

/-- The interpolation `${line.qty}`. -/
def qtyFragment (l : JSLine) : String := jsValToString l.qty

/-- The interpolation `${(Number(line.price) * Number(line.qty)).toFixed(2)}`. -/
def subtotalFragment (l : JSLine) : String :=
  toFixed2 (match jsToNumber l.price, jsToNumber l.qty with
            | some a, some b => some (a * b)
            | _, _ => none)

/-- The interpolation `${escapeAttr(line.note || "")}`. -/
def noteFragment (l : JSLine) : String :=
  escapeAttr (if jsFalsy l.note then JSVal.str "" else l.note)

/-- The `row.innerHTML` template of `renderCheckout`, with the five
interpolations filled in. -/
def rowHtml (l : JSLine) : String :=
  "\n        <div class=\"d-flex justify-content-between align-items-start\">\n          <div>\n            <div class=\"fw-bold\">" ++
  nameFragment l ++
  "</div>\n            <div class=\"small text-muted\">฿" ++
  priceFragment l ++
  "</div>\n          </div>\n          <button class=\"btn btn-sm btn-outline-danger\" data-del>ลบ</button>\n        </div>\n\n        <div class=\"row g-2 mt-2\">\n          <div class=\"col-6\">\n            <input class=\"form-control form-control-sm\"\n                   type=\"number\" min=\"1\" inputmode=\"numeric\"\n                   value=\"" ++
  qtyFragment l ++
  "\" data-qty />\n          </div>\n          <div class=\"col-6 text-end small pt-1\">\n            รวม: ฿" ++
  subtotalFragment l ++
  "\n          </div>\n        </div>\n\n        <div class=\"mt-2\">\n          <input class=\"form-control form-control-sm\"\n                 placeholder=\"หมายเหตุรายการ...\"\n                 value=\"" ++
  noteFragment l ++
  "\" data-note />\n        </div>\n      "

/-- A character that is none of the markup-introducing `< > " '`. -/
def markupFree (c : Char) : Bool :=
  !(c == '<' || c == '>' || c == '"' || c == '\'')

/-- A string free of the markup-introducing characters `< > " '`. -/
def noMarkup (s : String) : Bool := s.data.all markupFree

/-! ## Service worker fetch listener -/

/-- A network request, by its method and URL. -/
structure SWRequest where
  method : String
  url : String
deriving DecidableEq

/-- What the fetch listener does with an event: nothing (the request proceeds
untouched), or `respondWith` a value (`none` models responding with the
`undefined` fall-through value). -/
inductive FetchAction (ρ : Type) where
  | passthrough : FetchAction ρ
  | respond : Option ρ → FetchAction ρ
deriving DecidableEq

/-- The `fetch` listener: non-GET requests return early; otherwise
`caches.match(req).then(cached => cached || fetch(req).catch(() => cached))`.
`cache` gives the cached response for a URL; `net req` is `none` when the
network fetch rejects. -/
def handleFetch {ρ : Type} (cache : String → Option ρ) (net : SWRequest → Option ρ)
    (req : SWRequest) : FetchAction ρ :=
  if req.method ≠ "GET" then FetchAction.passthrough
  else
    match cache req.url with
    | some c => FetchAction.respond (some c)
    | none => FetchAction.respond (net req)

/-! ## Staff client: confirmPayment -/

/-- The confirm button `btn-pay-{order_id}`: its `disabled` flag, text,
`dataset.oldText`, and class list. -/
structure BtnState where
  disabled : Bool
  text : String
  oldText : Option String
  classes : List String
deriving DecidableEq

/-- The payment badge `pay-{order_id}`. -/
structure BadgeState where
  text : String
  className : String
deriving DecidableEq

/-- The DOM state `confirmPayment` touches, plus the list of alerts shown. -/
structure StaffUI where
  btn : Option BtnState
  badge : Option BadgeState
  alerts : List String
deriving DecidableEq

/-- Outcome of the `POST /staff/orders/{order_id}/notify_payment` call:
a 2xx response, a non-2xx response with its body text, or a rejected fetch
whose alert text (`err?.message || err`) is `msg`. -/
inductive PayResponse where
  | ok
  | httpErr (body : String)
  | netErr (msg : String)
deriving DecidableEq

/-- Models `el.classList.add(c)`. -/
def classListAdd (cs : List String) (c : String) : List String :=
  if c ∈ cs then cs else cs ++ [c]

/-- Models `el.classList.remove(c)`. -/
def classListRemove (cs : List String) (c : String) : List String :=
  cs.filter (fun x => x != c)

/-- Models `v || d` for an optional string (`undefined` and `""` are falsy). -/
def jsOrStr (v : Option String) (d : String) : String :=
  match v with
  | some s => if s = "" then d else s
  | none => d

/-- Models `confirmPayment(order_id)`: `confirmed` is the result of the `confirm`
dialog; `res` the outcome of the POST.  Mirrors the handler statement by
statement. -/
def confirmPayment (confirmed : Bool) (res : PayResponse) (ui : StaffUI) : StaffUI :=
  if !confirmed then ui
  else
    let btn1 := ui.btn.map (fun b =>
      { b with disabled := true, oldText := some b.text, text := "กำลังยืนยัน..." })
    match res with
    | PayResponse.ok =>
        { ui with
          badge := ui.badge.map (fun bd =>
            { bd with text := "paid", className := "badge text-bg-success" }),
          btn := btn1.map (fun b =>
            { b with text := "Paid ✅",
                     classes := classListAdd (classListRemove b.classes "btn-success") "btn-secondary",
                     disabled := true }) }
    | PayResponse.httpErr body =>
        let msg := if body = "" then "ยืนยันการชำระเงินไม่สำเร็จ" else body
        { ui with
          alerts := ui.alerts ++ ["เชื่อมต่อไม่สำเร็จ: " ++ msg],
          btn := btn1.map (fun b =>
            { b with disabled := false, text := jsOrStr b.oldText "confirm payment" }) }
    | PayResponse.netErr msg =>
        { ui with
          alerts := ui.alerts ++ ["เชื่อมต่อไม่สำเร็จ: " ++ msg],
          btn := btn1.map (fun b =>
            { b with disabled := false, text := jsOrStr b.oldText "confirm payment" }) }

/-! ## Concrete fixtures used by witnesses and counterexamples -/

/-- A store holding one cart line (item `"A"`, price 60, quantity 1) under the
key `"k"`. -/
def demoStore : Store :=
  [("k", StoredVal.lines [⟨JSVal.str "A", JSVal.str "x", JSVal.num 60, JSVal.num 1, JSVal.str ""⟩])]

/-- A store whose value under `"k"` is a string `JSON.parse` throws on, next
to an unrelated key. -/
def demoBadStore : Store :=
  [("k", StoredVal.malformed),
   ("cart:t2:anon", StoredVal.lines [⟨JSVal.str "B", JSVal.str "y", JSVal.num 5, JSVal.num 2, JSVal.str ""⟩])]

/-- A cache holding an entry for `/static/app.js` only. -/
def demoCache : String → Option ℕ :=
  fun u => if u = "/static/app.js" then some 1 else none

/-- A network that answers every request. -/
def demoNetUp : SWRequest → Option ℕ := fun _ => some 2

/-- A network whose every fetch rejects. -/
def demoNetDown : SWRequest → Option ℕ := fun _ => none

/-- A staff page with a confirm button (text `"Pay"`, class `btn-success`) and
an `unpaid` badge. -/
def demoUI : StaffUI :=
  ⟨some ⟨false, "Pay", none, ["btn", "btn-success"]⟩, some ⟨"unpaid", "badge text-bg-warning"⟩, []⟩

/-! # Lemmas -/

theorem getItem_setItem (st : Store) (key k : String) (v : StoredVal) :
    getItem (setItem st key v) k = if key = k then some v else getItem st k := by
  induction st with
  | nil => rfl
  | cons hd tl ih =>
      obtain ⟨k0, v0⟩ := hd
      rcases eq_or_ne k0 key with h0 | h0
      · subst h0
        simp only [setItem, if_pos rfl, getItem]
        rcases eq_or_ne k0 k with h1 | h1
        · simp [h1]
        · simp [h1]
      · simp only [setItem, if_neg h0, getItem]
        rcases eq_or_ne k0 k with h1 | h1
        · subst h1
          simp [Ne.symm h0]
        · simp [h1, ih]

theorem getItem_removeItem (st : Store) (key k : String) :
    getItem (removeItem st key) k = if key = k then none else getItem st k := by
  induction st with
  | nil => simp [removeItem, getItem]
  | cons hd tl ih =>
      obtain ⟨k0, v0⟩ := hd
      rcases eq_or_ne k0 key with h0 | h0
      · subst h0
        simp only [removeItem, if_pos rfl]
        rcases eq_or_ne k0 k with h1 | h1
        · subst h1
          simpa using ih
        · simpa [h1, getItem] using ih
      · simp only [removeItem, if_neg h0, getItem]
        rcases eq_or_ne k0 k with h1 | h1
        · subst h1
          simp [Ne.symm h0]
        · simp [h1, ih]

theorem load_save (key : String) (st : Store) (ls : List JSLine) :
    Cart._load key (Cart._save key st ls) = ls.map normLine := by
  simp [Cart._load, Cart._save, getItem_setItem]

theorem load_congr {key : String} {st st' : Store}
    (h : getItem st key = getItem st' key) :
    Cart._load key st = Cart._load key st' := by
  simp [Cart._load, h]

theorem load_of_absent {key : String} {st : Store} (h : getItem st key = none) :
    Cart._load key st = [] := by
  simp [Cart._load, h]

theorem load_of_malformed {key : String} {st : Store}
    (h : getItem st key = some StoredVal.malformed) :
    Cart._load key st = [] := by
  simp [Cart._load, h]

theorem load_clear (key : String) (st : Store) :
    Cart._load key (Cart.clear key st) = [] := by
  simp [Cart.clear, Cart._load, getItem_removeItem]

theorem foldl_add_sum (f : JSLine → ℚ) :
    ∀ (ls : List JSLine) (a : ℚ),
      ls.foldl (fun s x => s + f x) a = a + (ls.map f).sum
  | [], a => by simp
  | x :: t, a => by
      simp only [List.foldl_cons, List.map_cons, List.sum_cons, foldl_add_sum f t]
      ring

theorem total_eq_sum (key : String) (st : Store) :
    Cart.total key st =
      ((Cart.getLines key st).map (fun x => numOr0 x.price * numOr0 x.qty)).sum := by
  simp [Cart.total, Cart.getLines, foldl_add_sum]

theorem count_eq_sum (key : String) (st : Store) :
    Cart.count key st = ((Cart.getLines key st).map (fun x => numOr0 x.qty)).sum := by
  simp [Cart.count, Cart.getLines, foldl_add_sum]

theorem normField_nanFree {v : JSVal} (h : fieldNanFree v = true) : normField v = v := by
  cases v <;> simp_all [fieldNanFree, normField]

theorem normLine_nanFree {l : JSLine} (h : lineNanFree l = true) : normLine l = l := by
  rcases l with ⟨i, n, p, q, m⟩
  simp only [lineNanFree, Bool.and_eq_true] at h
  obtain ⟨⟨⟨⟨h1, h2⟩, h3⟩, h4⟩, h5⟩ := h
  simp [normLine, normField_nanFree h1, normField_nanFree h2, normField_nanFree h3,
    normField_nanFree h4, normField_nanFree h5]

theorem map_normLine_nanFree {ls : List JSLine} (h : ls.all lineNanFree = true) :
    ls.map normLine = ls := by
  induction ls with
  | nil => rfl
  | cons a t ih =>
      simp only [List.all_cons, Bool.and_eq_true] at h
      simp [normLine_nanFree h.1, ih h.2]

theorem normLine_newLine (id nm : String) (price : ℚ) :
    normLine (newLine id nm price) = newLine id nm price := rfl

theorem isId_normLine (id : String) (l : JSLine) : isId id (normLine l) = isId id l := by
  rcases l with ⟨i, n, p, q, m⟩
  cases i <;> rfl

theorem find?_map_norm_updateFirst (id : String) (f : JSLine → JSLine)
    (hf : ∀ l, isId id (f l) = isId id l) :
    ∀ ls : List JSLine,
      ((updateFirst (isId id) f ls).map normLine).find? (isId id) =
        (ls.find? (isId id)).map fun l => normLine (f l)
  | [] => rfl
  | l :: rest => by
      by_cases h : isId id l = true
      · have hl : isId id (normLine (f l)) = true :=
          (isId_normLine id (f l)).trans ((hf l).trans h)
        simp only [updateFirst]
        rw [if_pos h, List.map_cons, List.find?_cons_of_pos _ hl,
          List.find?_cons_of_pos _ h, Option.map_some']
      · have h' : isId id l = false := by simpa using h
        have hl : isId id (normLine l) = false := (isId_normLine id l).trans h'
        simp only [updateFirst]
        rw [if_neg (by simp [h']), List.map_cons, List.find?_cons_of_neg _ (by simp [hl]),
          List.find?_cons_of_neg _ (by simp [h'])]
        exact find?_map_norm_updateFirst id f hf rest

theorem qtyOk_normField (v : JSVal) : qtyOk (normField v) = qtyOk v := by
  cases v <;> rfl

theorem noteOk_normField (v : JSVal) : noteOk (normField v) = noteOk v := by
  cases v <;> rfl

theorem lineOk_normLine (l : JSLine) : lineOk (normLine l) = lineOk l := by
  rcases l with ⟨i, n, p, q, m⟩
  simp [lineOk, normLine, qtyOk_normField, noteOk_normField]

theorem cartOk_map_norm (ls : List JSLine) : cartOk (ls.map normLine) = cartOk ls := by
  induction ls with
  | nil => rfl
  | cons a t ih =>
      simp only [cartOk] at ih ⊢
      simp only [List.map_cons, List.all_cons, lineOk_normLine, ih]

theorem notesOk_map_norm (ls : List JSLine) : notesOk (ls.map normLine) = notesOk ls := by
  induction ls with
  | nil => rfl
  | cons a t ih =>
      simp only [notesOk] at ih ⊢
      rcases a with ⟨i, n, p, q, m⟩
      simp only [List.map_cons, List.all_cons, ih]
      simp [normLine, noteOk_normField]

theorem all_updateFirst (p q : JSLine → Bool) (f : JSLine → JSLine)
    (hf : ∀ l, q l = true → q (f l) = true) :
    ∀ {ls : List JSLine}, ls.all q = true → (updateFirst p f ls).all q = true
  | [], _ => rfl
  | l :: rest, h => by
      simp only [List.all_cons, Bool.and_eq_true] at h
      simp only [updateFirst]
      by_cases hp : p l = true
      · rw [if_pos hp]
        simp [List.all_cons, hf l h.1, h.2]
      · rw [if_neg (by simp [hp])]
        simp [List.all_cons, h.1, all_updateFirst p q f hf h.2]

theorem all_filter (q p : JSLine → Bool) :
    ∀ {ls : List JSLine}, ls.all q = true → (ls.filter p).all q = true
  | [], _ => rfl
  | l :: rest, h => by
      simp only [List.all_cons, Bool.and_eq_true] at h
      by_cases hp : p l = true
      · simp [List.filter_cons, hp, h.1, all_filter q p h.2]
      · simp [List.filter_cons, hp, all_filter q p h.2]

theorem getLines_add_found {key id : String} {st : Store} (nm : String) (price : ℚ)
    (h : ((Cart._load key st).find? (isId id)).isSome = true) :
    Cart.getLines key (Cart.add key id nm price st) =
      (updateFirst (isId id) (fun l => { l with qty := jsPlus1 l.qty })
        (Cart._load key st)).map normLine := by
  simp only [Cart.getLines, Cart.add]
  rw [if_pos h, load_save]

theorem getLines_add_new {key id : String} {st : Store} (nm : String) (price : ℚ)
    (h : ((Cart._load key st).find? (isId id)).isSome = false) :
    Cart.getLines key (Cart.add key id nm price st) =
      (Cart._load key st).map normLine ++ [newLine id nm price] := by
  simp only [Cart.getLines, Cart.add]
  rw [if_neg (by simp [h]), load_save, List.map_append]
  rfl

theorem getLines_remove (key id : String) (st : Store) :
    Cart.getLines key (Cart.remove key id st) =
      ((Cart._load key st).filter (fun l => !(isId id l))).map normLine := by
  simp only [Cart.getLines, Cart.remove]
  rw [load_save]

theorem getLines_setQty_found {key id qty : String} {st : Store}
    (h : ((Cart._load key st).find? (isId id)).isSome = true) :
    Cart.getLines key (Cart.setQty key id qty st) =
      (updateFirst (isId id) (fun l => { l with qty := Cart.setQtyValue qty })
        (Cart._load key st)).map normLine := by
  simp only [Cart.getLines, Cart.setQty]
  rw [if_pos h, load_save]

theorem setQty_absent {key id qty : String} {st : Store}
    (h : ((Cart._load key st).find? (isId id)).isSome = false) :
    Cart.setQty key id qty st = st := by
  simp only [Cart.setQty]
  rw [if_neg (by simp [h])]

theorem getLines_setNote_found {key id noteArg : String} {st : Store}
    (h : ((Cart._load key st).find? (isId id)).isSome = true) :
    Cart.getLines key (Cart.setNote key id noteArg st) =
      (updateFirst (isId id)
        (fun l => { l with note := JSVal.str (String.mk (noteArg.data.take 300)) })
        (Cart._load key st)).map normLine := by
  simp only [Cart.getLines, Cart.setNote]
  rw [if_pos h, load_save]

theorem setNote_absent {key id noteArg : String} {st : Store}
    (h : ((Cart._load key st).find? (isId id)).isSome = false) :
    Cart.setNote key id noteArg st = st := by
  simp only [Cart.setNote]
  rw [if_neg (by simp [h])]

theorem lineOk_plus1 {l : JSLine} (h : lineOk l = true) :
    lineOk { l with qty := jsPlus1 l.qty } = true := by
  rcases l with ⟨i, n, p, q, m⟩
  simp only [lineOk, Bool.and_eq_true] at h ⊢
  obtain ⟨hq, hm⟩ := h
  refine ⟨?_, hm⟩
  cases q with
  | num x =>
      simp only [qtyOk, decide_eq_true_eq] at hq
      simp only [jsPlus1, qtyOk, decide_eq_true_eq]
      linarith
  | nan => simp [qtyOk] at hq
  | nullv => simp [qtyOk] at hq
  | undef => simp [qtyOk] at hq
  | boolv b => simp [qtyOk] at hq
  | str s => simp [qtyOk] at hq

theorem qtyOk_setQtyValue {qty : String} (h : goodQtyStr qty = true) :
    qtyOk (Cart.setQtyValue qty) = true := by
  by_cases hq : qty = ""
  · subst hq
    with_unfolding_all rfl
  · have h1 : (qty == "") = false := by simpa using hq
    unfold goodQtyStr at h
    rw [h1, Bool.false_or] at h
    obtain ⟨n, hn⟩ := Option.isSome_iff_exists.mp h
    simp only [Cart.setQtyValue, if_neg hq, hn, qtyOk, decide_eq_true_eq]
    exact_mod_cast le_max_left (1 : ℤ) n

theorem lineOk_setQtyValue {l : JSLine} {qty : String}
    (hg : goodQtyStr qty = true) (h : lineOk l = true) :
    lineOk { l with qty := Cart.setQtyValue qty } = true := by
  rcases l with ⟨i, n, p, q, m⟩
  simp only [lineOk, Bool.and_eq_true] at h ⊢
  exact ⟨qtyOk_setQtyValue hg, h.2⟩

theorem lineOk_setNoteValue {l : JSLine} (s : String) (h : lineOk l = true) :
    lineOk { l with note := JSVal.str (String.mk (s.data.take 300)) } = true := by
  rcases l with ⟨i, n, p, q, m⟩
  simp only [lineOk, Bool.and_eq_true] at h ⊢
  refine ⟨h.1, ?_⟩
  simp only [noteOk, decide_eq_true_eq]
  show (s.data.take 300).length ≤ 300
  simp [List.length_take]

theorem lineOk_newLine (id nm : String) (price : ℚ) :
    lineOk (newLine id nm price) = true := by
  with_unfolding_all rfl

theorem cartOk_applyOp {key : String} {st : Store} (op : Op)
    (hop : opGood op = true) (h : cartOk (Cart.getLines key st) = true) :
    cartOk (Cart.getLines key (applyOp key op st)) = true := by
  have hload : cartOk (Cart._load key st) = true := h
  cases op with
  | add id nm price =>
      show cartOk (Cart.getLines key (Cart.add key id nm price st)) = true
      by_cases hf : ((Cart._load key st).find? (isId id)).isSome = true
      · rw [getLines_add_found nm price hf, cartOk_map_norm]
        exact all_updateFirst _ _ _ (fun l hl => lineOk_plus1 hl) hload
      · rw [getLines_add_new nm price (by simpa using hf)]
        have hmap : cartOk ((Cart._load key st).map normLine) = true := by
          rw [cartOk_map_norm]
          exact hload
        simp only [cartOk] at hmap ⊢
        simp [List.all_append, hmap, List.all_cons, lineOk_newLine id nm price]
  | remove id =>
      show cartOk (Cart.getLines key (Cart.remove key id st)) = true
      rw [getLines_remove, cartOk_map_norm]
      exact all_filter _ _ hload
  | setQty id qty =>
      show cartOk (Cart.getLines key (Cart.setQty key id qty st)) = true
      by_cases hf : ((Cart._load key st).find? (isId id)).isSome = true
      · rw [getLines_setQty_found hf, cartOk_map_norm]
        exact all_updateFirst _ _ _ (fun l hl => lineOk_setQtyValue hop hl) hload
      · rw [setQty_absent (by simpa using hf)]
        exact h
  | setNote id noteArg =>
      show cartOk (Cart.getLines key (Cart.setNote key id noteArg st)) = true
      by_cases hf : ((Cart._load key st).find? (isId id)).isSome = true
      · rw [getLines_setNote_found hf, cartOk_map_norm]
        exact all_updateFirst _ _ _ (fun l hl => lineOk_setNoteValue noteArg hl) hload
      · rw [setNote_absent (by simpa using hf)]
        exact h
  | clear =>
      show cartOk (Cart._load key (Cart.clear key st)) = true
      rw [load_clear]
      rfl

theorem noteOk_any_qty (v : JSVal) {l : JSLine}
    (h : noteOk l.note = true) : noteOk ({ l with qty := v }).note = true := h

theorem notesOk_applyOp {key : String} {st : Store} (op : Op)
    (h : notesOk (Cart.getLines key st) = true) :
    notesOk (Cart.getLines key (applyOp key op st)) = true := by
  have hload : notesOk (Cart._load key st) = true := h
  cases op with
  | add id nm price =>
      show notesOk (Cart.getLines key (Cart.add key id nm price st)) = true
      by_cases hf : ((Cart._load key st).find? (isId id)).isSome = true
      · rw [getLines_add_found nm price hf, notesOk_map_norm]
        exact all_updateFirst (isId id) (fun l => noteOk l.note)
          (fun l => { l with qty := jsPlus1 l.qty }) (fun l hl => hl) hload
      · rw [getLines_add_new nm price (by simpa using hf)]
        have hmap : notesOk ((Cart._load key st).map normLine) = true := by
          rw [notesOk_map_norm]
          exact hload
        simp only [notesOk] at hmap ⊢
        rw [List.all_append, hmap, Bool.true_and]
        simp [newLine, noteOk]
  | remove id =>
      show notesOk (Cart.getLines key (Cart.remove key id st)) = true
      rw [getLines_remove, notesOk_map_norm]
      exact all_filter _ _ hload
  | setQty id qty =>
      show notesOk (Cart.getLines key (Cart.setQty key id qty st)) = true
      by_cases hf : ((Cart._load key st).find? (isId id)).isSome = true
      · rw [getLines_setQty_found hf, notesOk_map_norm]
        exact all_updateFirst (isId id) (fun l => noteOk l.note)
          (fun l => { l with qty := Cart.setQtyValue qty }) (fun l hl => hl) hload
      · rw [setQty_absent (by simpa using hf)]
        exact h
  | setNote id noteArg =>
      show notesOk (Cart.getLines key (Cart.setNote key id noteArg st)) = true
      by_cases hf : ((Cart._load key st).find? (isId id)).isSome = true
      · rw [getLines_setNote_found hf, notesOk_map_norm]
        refine all_updateFirst _ _ _ (fun l hl => ?_) hload
        simp only [noteOk, decide_eq_true_eq]
        show (noteArg.data.take 300).length ≤ 300
        simp [List.length_take]
      · rw [setNote_absent (by simpa using hf)]
        exact h
  | clear =>
      show notesOk (Cart._load key (Cart.clear key st)) = true
      rw [load_clear]
      rfl

theorem cartOk_runOps {key : String} :
    ∀ (ops : List Op) {st : Store}, ops.all opGood = true →
      cartOk (Cart.getLines key st) = true →
      cartOk (Cart.getLines key (runOps key ops st)) = true
  | [], _, _, h => h
  | op :: rest, st, hall, h => by
      simp only [List.all_cons, Bool.and_eq_true] at hall
      exact cartOk_runOps rest hall.2 (cartOk_applyOp op hall.1 h)

theorem notesOk_runOps {key : String} :
    ∀ (ops : List Op) {st : Store},
      notesOk (Cart.getLines key st) = true →
      notesOk (Cart.getLines key (runOps key ops st)) = true
  | [], _, h => h
  | op :: rest, _, h => notesOk_runOps rest (notesOk_applyOp op h)

/-! # Claim theorems -/

/-- C9: for every cart state, after `clear()` the calls `getLines()`, `total()`
and `count()` return the empty sequence, `0` and `0` respectively. -/
theorem clear_resets (key : String) (st : Store) :
    Cart.getLines key (Cart.clear key st) = [] ∧
    Cart.total key (Cart.clear key st) = 0 ∧
    Cart.count key (Cart.clear key st) = 0 := by
  refine ⟨load_clear key st, ?_, ?_⟩
  · simp [Cart.total, load_clear key st]
  · simp [Cart.count, load_clear key st]

/-- C4: for every persisted cart state, `total()` is the sum of
`price × qty` over the lines and `count()` the sum of `qty`, where the price
and qty fields are read through `Number(x) || 0`, which maps a missing field
(`undefined`), `null`, `NaN`, or a non-numeric string to `0`. -/
theorem total_count_aggregate :
    (∀ (key : String) (st : Store),
        Cart.total key st =
          ((Cart.getLines key st).map (fun x => numOr0 x.price * numOr0 x.qty)).sum ∧
        Cart.count key st =
          ((Cart.getLines key st).map (fun x => numOr0 x.qty)).sum) ∧
    numOr0 JSVal.undef = 0 ∧ numOr0 JSVal.nan = 0 ∧ numOr0 JSVal.nullv = 0 ∧
    numOr0 (JSVal.str "abc") = 0 := by
  refine ⟨fun key st => ⟨total_eq_sum key st, count_eq_sum key st⟩, rfl, rfl, rfl, ?_⟩
  with_unfolding_all rfl

/-- C6: the service worker's fetch listener passes non-GET requests through;
a GET with a cached entry for its URL is answered from the cache without
consulting the network; a GET with no cached entry gets the network response,
and when the network fetch fails the response falls back to the (absent)
cached entry. -/
theorem fetch_cache_first {ρ : Type} (cache : String → Option ρ)
    (net net2 : SWRequest → Option ρ) (req : SWRequest) :
    (req.method ≠ "GET" → handleFetch cache net req = FetchAction.passthrough) ∧
    (req.method = "GET" → ∀ c, cache req.url = some c →
      handleFetch cache net req = FetchAction.respond (some c) ∧
      handleFetch cache net2 req = handleFetch cache net req) ∧
    (req.method = "GET" → cache req.url = none →
      handleFetch cache net req = FetchAction.respond (net req) ∧
      (net req = none → handleFetch cache net req = FetchAction.respond (cache req.url))) := by
  refine ⟨fun h => by simp [handleFetch, h], fun h c hc => ?_, fun h hc => ?_⟩
  · constructor <;> simp [handleFetch, h, hc]
  · refine ⟨by simp [handleFetch, h, hc], fun hn => by simp [handleFetch, h, hc, hn]⟩

/-- C6 witness: the three behaviours at concrete requests. -/
theorem fetch_cache_first_w :
    handleFetch demoCache demoNetUp ⟨"POST", "/static/app.js"⟩ = FetchAction.passthrough ∧
    handleFetch demoCache demoNetUp ⟨"GET", "/static/app.js"⟩ = FetchAction.respond (some 1) ∧
    handleFetch demoCache demoNetDown ⟨"GET", "/other"⟩ = FetchAction.respond none :=
  ⟨(fetch_cache_first demoCache demoNetUp demoNetUp ⟨"POST", "/static/app.js"⟩).1 (by decide),
   ((fetch_cache_first demoCache demoNetUp demoNetUp ⟨"GET", "/static/app.js"⟩).2.1 rfl 1 (by decide)).1,
   ((fetch_cache_first demoCache demoNetDown demoNetDown ⟨"GET", "/other"⟩).2.2 rfl (by decide)).1⟩

/-- C8: `escapeHtml` output contains none of `< > " '`, and the name and note
interpolations of the checkout row template are exactly the escaped fields,
so they are free of markup characters for every line. -/
theorem escaping_prevents_markup :
    (∀ s : String, noMarkup (escapeHtml (JSVal.str s)) = true) ∧
    (∀ l : JSLine, noMarkup (nameFragment l) = true ∧ noMarkup (noteFragment l) = true) := by
  have escGood : ∀ c : Char, (escChar c).all markupFree = true := by
    intro c
    unfold escChar
    split_ifs with h1 h2 h3 h4 h5
    · decide
    · decide
    · decide
    · decide
    · decide
    · simp only [List.all_cons, List.all_nil, Bool.and_true, markupFree]
      simp [h2, h3, h4, h5]
  have chainGood : ∀ cs : List Char,
      (cs.foldr (fun c acc => escChar c ++ acc) []).all markupFree = true := by
    intro cs
    induction cs with
    | nil => rfl
    | cons c t ih => simp [List.all_append, escGood c, ih]
  have escapeHtmlGood : ∀ v : JSVal, noMarkup (escapeHtml v) = true := by
    intro v
    simpa [noMarkup, escapeHtml] using chainGood _
  have quoteChain : ∀ cs : List Char, cs.all markupFree = true →
      (cs.foldr (fun c acc => (if c = '"' then "&quot;".data else [c]) ++ acc) []).all markupFree = true := by
    intro cs
    induction cs with
    | nil => intro _; rfl
    | cons c t ih =>
        intro h
        simp only [List.all_cons, Bool.and_eq_true] at h
        by_cases hc : c = '"'
        · subst hc
          simp only [List.foldr_cons, if_pos rfl, List.all_append, Bool.and_eq_true]
          exact ⟨by decide, ih h.2⟩
        · simp only [List.foldr_cons, if_neg hc, List.all_append, Bool.and_eq_true]
          exact ⟨by simp [h.1], ih h.2⟩
  have escapeAttrGood : ∀ v : JSVal, noMarkup (escapeAttr v) = true := by
    intro v
    have h := escapeHtmlGood v
    simp only [noMarkup, escapeAttr] at h ⊢
    exact quoteChain _ h
  exact ⟨fun s => escapeHtmlGood _, fun l => ⟨escapeHtmlGood _, escapeAttrGood _⟩⟩

/-- C1 (amended): `setQty(item_id, qty)` is a no-op when `item_id` is absent
and never throws.  When the line is present, the stored quantity becomes
`max 1 n` when `qty` is empty (defaulting to `1`) or when `parseInt` yields
`n`; when `qty` has no digit prefix (e.g. `"abc"`), the quantity becomes
`NaN`, which persists as `null` — not `1` as the original claim states. -/
theorem setQty_parse_clamp (key id qty : String) (st : Store) :
    (((Cart.getLines key st).find? (isId id)).isSome = false →
        Cart.setQty key id qty st = st) ∧
    (∀ ln, (Cart.getLines key st).find? (isId id) = some ln →
        ((Cart.getLines key (Cart.setQty key id qty st)).find? (isId id)).map (fun l => l.qty) =
          some (match (if qty = "" then some (1 : ℤ) else parseIntJS qty) with
                | some n => JSVal.num ((max 1 n : ℤ) : ℚ)
                | none => JSVal.nullv)) ∧
    (∀ n : ℤ, parseIntJS qty = some n → (1 : ℚ) ≤ ((max 1 n : ℤ) : ℚ)) := by
  refine ⟨fun h => setQty_absent (by simpa [Cart.getLines] using h), fun ln hfind => ?_, ?_⟩
  · have hs : ((Cart._load key st).find? (isId id)).isSome = true := by
      simp [Cart.getLines] at hfind
      simp [hfind]
    rw [getLines_setQty_found hs,
      find?_map_norm_updateFirst id (fun l => { l with qty := Cart.setQtyValue qty }) (fun l => rfl) _]
    have hfind' : (Cart._load key st).find? (isId id) = some ln := hfind
    rw [hfind', Option.map_some', Option.map_some']
    rcases ln with ⟨i, n0, p, q0, m⟩
    simp only [normLine]
    rcases hcase : (if qty = "" then some (1 : ℤ) else parseIntJS qty) with _ | n
    · simp [Cart.setQtyValue, hcase, normField]
    · simp [Cart.setQtyValue, hcase, normField]
  · intro n _
    exact_mod_cast le_max_left (1 : ℤ) n

/-- C1 witness: a present line with an absent id is untouched; `" -5"` parses
and is clamped up to `1`; the clamp is at least `1`. -/
theorem setQty_parse_clamp_w :
    Cart.setQty "k" "B" "3" demoStore = demoStore ∧
    ((Cart.getLines "k" (Cart.setQty "k" "A" " -5" demoStore)).find? (isId "A")).map (fun l => l.qty) =
      some (JSVal.num ((max 1 (-5 : ℤ) : ℤ) : ℚ)) ∧
    (1 : ℚ) ≤ ((max 1 (-5 : ℤ) : ℤ) : ℚ) :=
  ⟨(setQty_parse_clamp "k" "B" "3" demoStore).1 (by decide),
   (setQty_parse_clamp "k" "A" " -5" demoStore).2.1
     ⟨JSVal.str "A", JSVal.str "x", JSVal.num 60, JSVal.num 1, JSVal.str ""⟩ (by decide),
   (setQty_parse_clamp "k" "A" " -5" demoStore).2.2 (-5) (by decide)⟩

/-- C1 counterexample: `setQty("A", "abc")` on a cart containing item `"A"`
with quantity `1` leaves the stored quantity `null` (the persisted form of
`NaN`), which is not `1`. -/
theorem setQty_abc_not_one :
    ((Cart.getLines "k" (Cart.setQty "k" "A" "abc" demoStore)).find? (isId "A")).map (fun l => l.qty) =
      some JSVal.nullv ∧ JSVal.nullv ≠ JSVal.num 1 :=
  ⟨by decide, by decide⟩

/-- C2 (amended): starting from an empty cart, every line has quantity ≥ 1 and
note length ≤ 300 after every call, provided every `setQty` in the sequence
receives an empty or integer-parseable argument; the note bound holds for all
sequences without that proviso. -/
theorem cart_invariant_sequences :
    (∀ (key : String) (st : Store) (pre suf : List Op),
        getItem st key = none → ((pre ++ suf).all opGood) = true →
        cartOk (Cart.getLines key (runOps key pre st)) = true) ∧
    (∀ (key : String) (st : Store) (ops : List Op),
        getItem st key = none →
        notesOk (Cart.getLines key (runOps key ops st)) = true) := by
  constructor
  · intro key st pre suf h hall
    have hpre : pre.all opGood = true := by
      simp only [List.all_append, Bool.and_eq_true] at hall
      exact hall.1
    have h0 : cartOk (Cart.getLines key st) = true := by
      show cartOk (Cart._load key st) = true
      rw [load_of_absent h]
      rfl
    exact cartOk_runOps pre hpre h0
  · intro key st ops h
    have h0 : notesOk (Cart.getLines key st) = true := by
      show notesOk (Cart._load key st) = true
      rw [load_of_absent h]
      rfl
    exact notesOk_runOps ops h0

/-- C2 witness: a concrete well-formed sequence keeps the invariant, and the
note bound holds even after a `setQty` with a non-numeric argument. -/
theorem cart_invariant_sequences_w :
    cartOk (Cart.getLines "k"
      (runOps "k" [Op.add "A" "x" 60, Op.setQty "A" "3"] [])) = true ∧
    notesOk (Cart.getLines "k"
      (runOps "k" [Op.add "A" "x" 60, Op.setQty "A" "abc"] [])) = true :=
  ⟨cart_invariant_sequences.1 "k" [] [Op.add "A" "x" 60, Op.setQty "A" "3"] [] rfl (by decide),
   cart_invariant_sequences.2 "k" [] [Op.add "A" "x" 60, Op.setQty "A" "abc"] rfl⟩

/-- C2 counterexample: after `add("A","x",60)` then `setQty("A","abc")` from an
empty cart, the single line's quantity is `null` (persisted `NaN`), so the
quantity ≥ 1 invariant fails after that call. -/
theorem cart_invariant_violated_by_nan_qty :
    cartOk (Cart.getLines "k"
      (runOps "k" [Op.add "A" "x" 60, Op.setQty "A" "abc"] [])) = false := by
  with_unfolding_all rfl

/-- C3: `add` on a present `item_id` (with a numeric quantity, as in every
state the module itself writes) increments that line's quantity by exactly 1
and leaves its id, name, price and note unchanged; on an absent `item_id` it
appends a fresh line with quantity 1 and empty note; and the double-add
example yields one line with quantity 2 and total 120. -/
theorem add_increments_or_appends :
    (∀ (key id nm : String) (price : ℚ) (st : Store) (ln : JSLine) (q : ℚ),
        (Cart.getLines key st).find? (isId id) = some ln →
        lineNanFree ln = true → ln.qty = JSVal.num q →
        (Cart.getLines key (Cart.add key id nm price st)).find? (isId id) =
          some ⟨ln.menu_item_id, ln.name, ln.price, JSVal.num (q + 1), ln.note⟩) ∧
    (∀ (key id nm : String) (price : ℚ) (st : Store),
        ((Cart.getLines key st).find? (isId id)).isSome = false →
        (Cart.getLines key st).all lineNanFree = true →
        Cart.getLines key (Cart.add key id nm price st) =
          Cart.getLines key st ++ [newLine id nm price]) ∧
    (Cart.getLines "k" (Cart.add "k" "A" "Pad Thai" 60 (Cart.add "k" "A" "Pad Thai" 60 [])) =
        [⟨JSVal.str "A", JSVal.str "Pad Thai", JSVal.num 60, JSVal.num 2, JSVal.str ""⟩] ∧
      Cart.total "k" (Cart.add "k" "A" "Pad Thai" 60 (Cart.add "k" "A" "Pad Thai" 60 [])) = 120) := by
  refine ⟨?_, ?_, by with_unfolding_all rfl, by with_unfolding_all rfl⟩
  · intro key id nm price st ln q hfind hnf hq
    have hs : ((Cart._load key st).find? (isId id)).isSome = true := by
      simp [Cart.getLines] at hfind
      simp [hfind]
    rw [getLines_add_found nm price hs,
      find?_map_norm_updateFirst id (fun l => { l with qty := jsPlus1 l.qty }) (fun l => rfl) _]
    have hfind' : (Cart._load key st).find? (isId id) = some ln := hfind
    rw [hfind', Option.map_some']
    rcases ln with ⟨i, n0, p, q0, m⟩
    simp only [lineNanFree, Bool.and_eq_true] at hnf
    obtain ⟨⟨⟨⟨h1, h2⟩, h3⟩, h4⟩, h5⟩ := hnf
    cases hq
    simp only [normLine, jsPlus1]
    have hnum : normField (JSVal.num (q + 1)) = JSVal.num (q + 1) := rfl
    rw [normField_nanFree h1, normField_nanFree h2, normField_nanFree h3,
      normField_nanFree h5, hnum]
  · intro key id nm price st hnone hnf
    rw [getLines_add_new nm price (by simpa [Cart.getLines] using hnone)]
    rw [show Cart.getLines key st = Cart._load key st from rfl] at hnf
    rw [map_normLine_nanFree hnf]
    rfl

/-- C3 witness: adding item `"A"` again on `demoStore` bumps its quantity from
1 to 2 and changes nothing else; adding a fresh item `"B"` appends a new line. -/
theorem add_increments_or_appends_w :
    (Cart.getLines "k" (Cart.add "k" "A" "y" 7 demoStore)).find? (isId "A") =
      some ⟨JSVal.str "A", JSVal.str "x", JSVal.num 60, JSVal.num (1 + 1), JSVal.str ""⟩ ∧
    Cart.getLines "k" (Cart.add "k" "B" "z" 5 demoStore) =
      Cart.getLines "k" demoStore ++ [newLine "B" "z" 5] :=
  ⟨add_increments_or_appends.1 "k" "A" "y" 7 demoStore
     ⟨JSVal.str "A", JSVal.str "x", JSVal.num 60, JSVal.num 1, JSVal.str ""⟩ 1
     (by decide) (by decide) rfl,
   add_increments_or_appends.2.1 "k" "B" "z" 5 demoStore (by decide) (by decide)⟩

theorem load_applyOp_congr {key : String} (op : Op) {st st' : Store}
    (h : Cart._load key st = Cart._load key st') :
    Cart._load key (applyOp key op st) = Cart._load key (applyOp key op st') := by
  cases op with
  | add id nm price =>
      show Cart._load key (Cart.add key id nm price st) =
        Cart._load key (Cart.add key id nm price st')
      simp only [Cart.add, h]
      by_cases hf : ((Cart._load key st').find? (isId id)).isSome = true
      · rw [if_pos hf, if_pos hf, load_save, load_save]
      · rw [if_neg (by simp [hf]), if_neg (by simp [hf]), load_save, load_save]
  | remove id =>
      show Cart._load key (Cart.remove key id st) = Cart._load key (Cart.remove key id st')
      simp only [Cart.remove, h]
      rw [load_save, load_save]
  | setQty id qty =>
      show Cart._load key (Cart.setQty key id qty st) =
        Cart._load key (Cart.setQty key id qty st')
      simp only [Cart.setQty, h]
      by_cases hf : ((Cart._load key st').find? (isId id)).isSome = true
      · rw [if_pos hf, if_pos hf, load_save, load_save]
      · rw [if_neg (by simp [hf]), if_neg (by simp [hf])]
        exact h
  | setNote id noteArg =>
      show Cart._load key (Cart.setNote key id noteArg st) =
        Cart._load key (Cart.setNote key id noteArg st')
      simp only [Cart.setNote, h]
      by_cases hf : ((Cart._load key st').find? (isId id)).isSome = true
      · rw [if_pos hf, if_pos hf, load_save, load_save]
      · rw [if_neg (by simp [hf]), if_neg (by simp [hf])]
        exact h
  | clear =>
      show Cart._load key (Cart.clear key st) = Cart._load key (Cart.clear key st')
      rw [load_clear, load_clear]

theorem runOps_load_congr {key : String} :
    ∀ (ops : List Op) {st st' : Store},
      Cart._load key st = Cart._load key st' →
      Cart._load key (runOps key ops st) = Cart._load key (runOps key ops st')
  | [], _, _, h => h
  | op :: rest, _, _, h => runOps_load_congr rest (load_applyOp_congr op h)

/-- C5: a stored value under the cart key on which `JSON.parse` throws reads
back as the empty cart (`getLines` is `[]`, `total` and `count` are `0`), and
under every subsequent operation sequence the cart observables coincide with
those of the store whose cart key was simply removed (an empty cart); no
operation throws, every embedded function being total. -/
theorem malformed_acts_as_empty (key : String) (st : Store)
    (h : getItem st key = some StoredVal.malformed) :
    Cart.getLines key st = [] ∧ Cart.total key st = 0 ∧ Cart.count key st = 0 ∧
    ∀ ops : List Op,
      Cart.getLines key (runOps key ops st) =
        Cart.getLines key (runOps key ops (removeItem st key)) ∧
      Cart.total key (runOps key ops st) =
        Cart.total key (runOps key ops (removeItem st key)) ∧
      Cart.count key (runOps key ops st) =
        Cart.count key (runOps key ops (removeItem st key)) := by
  have h0 : Cart._load key st = Cart._load key (removeItem st key) := by
    rw [load_of_malformed h, load_of_absent (by rw [getItem_removeItem]; simp)]
  refine ⟨load_of_malformed h, ?_, ?_, fun ops => ?_⟩
  · simp [Cart.total, load_of_malformed h]
  · simp [Cart.count, load_of_malformed h]
  · have hr := runOps_load_congr ops h0
    exact ⟨hr, by simp [Cart.total, hr], by simp [Cart.count, hr]⟩

/-- C5 witness: on a store whose `"k"` entry is malformed, `getLines` is empty
and an `add` behaves exactly as on the store with the entry removed. -/
theorem malformed_acts_as_empty_w :
    Cart.getLines "k" demoBadStore = [] ∧
    Cart.getLines "k" (runOps "k" [Op.add "A" "x" 60] demoBadStore) =
      Cart.getLines "k" (runOps "k" [Op.add "A" "x" 60] (removeItem demoBadStore "k")) :=
  ⟨(malformed_acts_as_empty "k" demoBadStore (by decide)).1,
   ((malformed_acts_as_empty "k" demoBadStore (by decide)).2.2.2 [Op.add "A" "x" 60]).1⟩

theorem applyOp_frame (key : String) (op : Op) (st : Store) (k2 : String)
    (h : k2 ≠ key) :
    getItem (applyOp key op st) k2 = getItem st k2 := by
  cases op with
  | add id nm price =>
      show getItem (Cart.add key id nm price st) k2 = getItem st k2
      simp only [Cart.add, Cart._save]
      by_cases hf : ((Cart._load key st).find? (isId id)).isSome = true
      · rw [if_pos hf, getItem_setItem, if_neg (Ne.symm h)]
      · rw [if_neg (by simp [hf]), getItem_setItem, if_neg (Ne.symm h)]
  | remove id =>
      show getItem (Cart.remove key id st) k2 = getItem st k2
      simp only [Cart.remove, Cart._save]
      rw [getItem_setItem, if_neg (Ne.symm h)]
  | setQty id qty =>
      show getItem (Cart.setQty key id qty st) k2 = getItem st k2
      simp only [Cart.setQty, Cart._save]
      by_cases hf : ((Cart._load key st).find? (isId id)).isSome = true
      · rw [if_pos hf, getItem_setItem, if_neg (Ne.symm h)]
      · rw [if_neg (by simp [hf])]
  | setNote id noteArg =>
      show getItem (Cart.setNote key id noteArg st) k2 = getItem st k2
      simp only [Cart.setNote, Cart._save]
      by_cases hf : ((Cart._load key st).find? (isId id)).isSome = true
      · rw [if_pos hf, getItem_setItem, if_neg (Ne.symm h)]
      · rw [if_neg (by simp [hf])]
  | clear =>
      show getItem (removeItem st key) k2 = getItem st k2
      rw [getItem_removeItem, if_neg (Ne.symm h)]

theorem applyOp_key_congr (key : String) (op : Op) {st st' : Store}
    (h : getItem st key = getItem st' key) :
    getItem (applyOp key op st) key = getItem (applyOp key op st') key := by
  have hl : Cart._load key st = Cart._load key st' := load_congr h
  cases op with
  | add id nm price =>
      show getItem (Cart.add key id nm price st) key =
        getItem (Cart.add key id nm price st') key
      simp only [Cart.add, Cart._save, hl]
      by_cases hf : ((Cart._load key st').find? (isId id)).isSome = true
      · rw [if_pos hf, if_pos hf, getItem_setItem, getItem_setItem]
        simp
      · rw [if_neg (by simp [hf]), if_neg (by simp [hf]), getItem_setItem, getItem_setItem]
        simp
  | remove id =>
      show getItem (Cart.remove key id st) key = getItem (Cart.remove key id st') key
      simp only [Cart.remove, Cart._save, hl]
      rw [getItem_setItem, getItem_setItem]
      simp
  | setQty id qty =>
      show getItem (Cart.setQty key id qty st) key =
        getItem (Cart.setQty key id qty st') key
      simp only [Cart.setQty, Cart._save, hl]
      by_cases hf : ((Cart._load key st').find? (isId id)).isSome = true
      · rw [if_pos hf, if_pos hf, getItem_setItem, getItem_setItem]
        simp
      · rw [if_neg (by simp [hf]), if_neg (by simp [hf])]
        exact h
  | setNote id noteArg =>
      show getItem (Cart.setNote key id noteArg st) key =
        getItem (Cart.setNote key id noteArg st') key
      simp only [Cart.setNote, Cart._save, hl]
      by_cases hf : ((Cart._load key st').find? (isId id)).isSome = true
      · rw [if_pos hf, if_pos hf, getItem_setItem, getItem_setItem]
        simp
      · rw [if_neg (by simp [hf]), if_neg (by simp [hf])]
        exact h
  | clear =>
      show getItem (removeItem st key) key = getItem (removeItem st' key) key
      rw [getItem_removeItem, getItem_removeItem]
      simp

/-- C10: every cart operation touches only the entry at the key
`cart:<table_token>:<customer_id|"anon">` computed by `init`: any other key's
entry is unchanged by every mutation, and all cart observables and the
mutations' effect at the cart key depend only on that entry. -/
theorem cart_key_isolation :
    (∀ (t : String) (c : Option String) (op : Op) (st : Store) (k2 : String),
        k2 ≠ Cart.initKey t c →
        getItem (applyOp (Cart.initKey t c) op st) k2 = getItem st k2) ∧
    (∀ (t : String) (c : Option String) (st st' : Store),
        getItem st (Cart.initKey t c) = getItem st' (Cart.initKey t c) →
        Cart.getLines (Cart.initKey t c) st = Cart.getLines (Cart.initKey t c) st' ∧
        Cart.total (Cart.initKey t c) st = Cart.total (Cart.initKey t c) st' ∧
        Cart.count (Cart.initKey t c) st = Cart.count (Cart.initKey t c) st' ∧
        ∀ op : Op,
          getItem (applyOp (Cart.initKey t c) op st) (Cart.initKey t c) =
            getItem (applyOp (Cart.initKey t c) op st') (Cart.initKey t c)) := by
  refine ⟨fun t c op st k2 h => applyOp_frame _ op st k2 h, fun t c st st' h => ?_⟩
  have hl : Cart._load (Cart.initKey t c) st = Cart._load (Cart.initKey t c) st' :=
    load_congr h
  exact ⟨hl, by simp [Cart.total, hl], by simp [Cart.count, hl],
    fun op => applyOp_key_congr _ op h⟩

/-- C10 witness: an `add` under the key `cart:t1:anon` leaves the unrelated
key `"k"` untouched, and two stores agreeing at `cart:t1:anon` have the same
cart lines. -/
theorem cart_key_isolation_w :
    getItem (applyOp (Cart.initKey "t1" none) (Op.add "A" "x" 60) demoStore) "k" =
      getItem demoStore "k" ∧
    Cart.getLines (Cart.initKey "t1" none) demoStore =
      Cart.getLines (Cart.initKey "t1" none) demoBadStore :=
  ⟨cart_key_isolation.1 "t1" none (Op.add "A" "x" 60) demoStore "k" (by decide),
   (cart_key_isolation.2 "t1" none demoStore demoBadStore (by decide)).1⟩

/-- C7: when the confirmation dialog is accepted and the payment POST returns
a non-2xx response or rejects, `confirmPayment` appends one blocking alert
carrying the error message and leaves the button re-enabled with its original
text; only a 2xx response produces the terminal "paid" badge and a disabled
"Paid ✅" button, with no alert. -/
theorem confirmPayment_outcomes (ui : StaffUI) (b : BtnState) (bd : BadgeState)
    (body m : String) (hb : ui.btn = some b) (hbd : ui.badge = some bd)
    (ht : b.text ≠ "") :
    ((confirmPayment true (PayResponse.httpErr body) ui).alerts =
        ui.alerts ++
          ["เชื่อมต่อไม่สำเร็จ: " ++ (if body = "" then "ยืนยันการชำระเงินไม่สำเร็จ" else body)] ∧
      (confirmPayment true (PayResponse.httpErr body) ui).btn =
        some { disabled := false, text := b.text, oldText := some b.text, classes := b.classes } ∧
      (confirmPayment true (PayResponse.netErr m) ui).alerts =
        ui.alerts ++ ["เชื่อมต่อไม่สำเร็จ: " ++ m] ∧
      (confirmPayment true (PayResponse.netErr m) ui).btn =
        some { disabled := false, text := b.text, oldText := some b.text, classes := b.classes }) ∧
    ((confirmPayment true PayResponse.ok ui).badge =
        some { text := "paid", className := "badge text-bg-success" } ∧
      (confirmPayment true PayResponse.ok ui).btn =
        some { disabled := true, text := "Paid ✅", oldText := some b.text,
               classes := classListAdd (classListRemove b.classes "btn-success") "btn-secondary" } ∧
      (confirmPayment true PayResponse.ok ui).alerts = ui.alerts) := by
  rcases ui with ⟨ob, obd, al⟩
  simp only at hb hbd
  subst hb
  subst hbd
  refine ⟨⟨?_, ?_, ?_, ?_⟩, ?_, ?_, ?_⟩ <;> simp [confirmPayment, jsOrStr, ht]

/-- C7 witness: on a concrete page state, a non-2xx body, a network failure
and a 2xx response each produce the stated alert/button/badge outcome. -/
theorem confirmPayment_outcomes_w :
    ((confirmPayment true (PayResponse.httpErr "boom") demoUI).alerts =
        [] ++ ["เชื่อมต่อไม่สำเร็จ: " ++ (if "boom" = "" then "ยืนยันการชำระเงินไม่สำเร็จ" else "boom")] ∧
      (confirmPayment true (PayResponse.httpErr "boom") demoUI).btn =
        some { disabled := false, text := "Pay", oldText := some "Pay",
               classes := ["btn", "btn-success"] } ∧
      (confirmPayment true (PayResponse.netErr "down") demoUI).alerts =
        [] ++ ["เชื่อมต่อไม่สำเร็จ: " ++ "down"] ∧
      (confirmPayment true (PayResponse.netErr "down") demoUI).btn =
        some { disabled := false, text := "Pay", oldText := some "Pay",
               classes := ["btn", "btn-success"] }) ∧
    ((confirmPayment true PayResponse.ok demoUI).badge =
        some { text := "paid", className := "badge text-bg-success" } ∧
      (confirmPayment true PayResponse.ok demoUI).btn =
        some { disabled := true, text := "Paid ✅", oldText := some "Pay",
               classes := classListAdd (classListRemove ["btn", "btn-success"] "btn-success") "btn-secondary" } ∧
      (confirmPayment true PayResponse.ok demoUI).alerts = []) :=
  confirmPayment_outcomes demoUI ⟨false, "Pay", none, ["btn", "btn-success"]⟩
    ⟨"unpaid", "badge text-bg-warning"⟩ "boom" "down" rfl rfl (by decide)
